import Mathlib

/-!
Shallow embedding of the AgentMesh settlement core: the `TaskEscrow`
state machine and the `JuryPool` juror registry with bounded random
committee selection, transcribed from the Solidity sources.

Modelling conventions:
* addresses, content hashes, wei amounts and timestamps are `Nat`;
* a `require` failure is `Except.error` carrying the revert reason
  string; a reverted call leaves the pre-call state observable
  (the `runTask` semantics keeps the previous state on `error`);
* an external value transfer `to.call\x7bvalue: v\x7d("")` is modelled by a
  caller-supplied oracle deciding whether the transfer succeeds; for the
  escrow the oracle also receives the task record as it stands at the
  moment the transfer is attempted, so the checks-effects-interactions
  ordering of the source (state written before the external call) is
  observable in the embedding;
* the pseudo-random seed of `selectJurors` is derived in the source from
  `keccak256(block.timestamp, block.prevrandao, disputeId)` and advanced
  by `keccak256(seed, attempts)`; the embedding abstracts the two hash
  computations as parameters `seed0 : Nat` and `hash2 : Nat → Nat → Nat`
  and proves the selection properties for every choice of them.
-/

namespace TaskEscrow

/-- `enum TaskState` of TaskEscrow.sol. -/
inductive TaskState where
  | Created
  | Accepted
  | Submitted
  | Verified
  | Disputed
  | Completed
  | Refunded
  deriving DecidableEq, Repr

/-- `WORKER_STAKE_PERCENT = 10` (percent of the payment required as worker stake). -/
def WORKER_STAKE_PERCENT : Nat := 10

/-- `VERIFICATION_TIMEOUT = 3 days`, in seconds. -/
def VERIFICATION_TIMEOUT : Nat := 3 * 24 * 60 * 60

/-- `struct Task` of TaskEscrow.sol. -/
structure Task where
  client : Nat
  worker : Nat
  payment : Nat
  workerStake : Nat
  specHash : Nat
  resultHash : Nat
  state : TaskState
  createdAt : Nat
  submittedAt : Nat
  deriving DecidableEq, Repr

/-- A transfer oracle: given recipient, amount, and the task record as
observable during the external call, decides whether the transfer
succeeds. -/
abbrev Xfer := Nat → Nat → Task → Bool

/-- `createTask`: requires `msg.value > 0`, records the caller as client
and escrows the payment.  Returns the freshly created task record (the
contract stores it under a fresh id; task records are independent, so the
embedding is per task). -/
def createTask (sender msgValue specHash now : Nat) : Except String Task :=
  if msgValue > 0 then
    .ok { client := sender, worker := 0, payment := msgValue, workerStake := 0,
          specHash := specHash, resultHash := 0, state := TaskState.Created,
          createdAt := now, submittedAt := 0 }
  else .error "Payment required"

/-- `acceptTask`: requires state `Created` and
`msg.value ≥ payment * WORKER_STAKE_PERCENT / 100`; records the caller as
worker and the full offered value as stake. -/
def acceptTask (task : Task) (sender msgValue : Nat) :
    Except String (Task × List (Nat × Nat)) :=
  if task.state = TaskState.Created then
    let requiredStake := task.payment * WORKER_STAKE_PERCENT / 100
    if requiredStake ≤ msgValue then
      .ok ({ task with worker := sender, workerStake := msgValue,
                       state := TaskState.Accepted }, [])
    else .error "Insufficient stake"
  else .error "Task not available"

/-- `submitResult`: `onlyWorker` modifier, requires state `Accepted`. -/
def submitResult (task : Task) (sender resultHash now : Nat) :
    Except String (Task × List (Nat × Nat)) :=
  if sender = task.worker then
    if task.state = TaskState.Accepted then
      .ok ({ task with resultHash := resultHash, state := TaskState.Submitted,
                       submittedAt := now }, [])
    else .error "Task not accepted"
  else .error "Not worker"

/-- `_completeTask`: writes `state = Completed`, then attempts the
transfer of `payment + workerStake` to the worker; the transfer oracle
observes the already-mutated record.  A failed transfer reverts the whole
operation. -/
def _completeTask (xfer : Xfer) (task : Task) :
    Except String (Task × List (Nat × Nat)) :=
  let workerPayout := task.payment + task.workerStake
  let task' := { task with state := TaskState.Completed }
  if xfer task'.worker workerPayout task' then
    .ok (task', [(task'.worker, workerPayout)])
  else .error "Payment failed"

/-- `approveResult`: `onlyClient` modifier, requires state `Submitted`,
then `_completeTask`. -/
def approveResult (xfer : Xfer) (task : Task) (sender : Nat) :
    Except String (Task × List (Nat × Nat)) :=
  if sender = task.client then
    if task.state = TaskState.Submitted then _completeTask xfer task
    else .error "Not submitted"
  else .error "Not client"

/-- `disputeResult`: `onlyClient` modifier, requires state `Submitted`;
moves to `Disputed`, no funds move. -/
def disputeResult (task : Task) (sender : Nat) :
    Except String (Task × List (Nat × Nat)) :=
  if sender = task.client then
    if task.state = TaskState.Submitted then
      .ok ({ task with state := TaskState.Disputed }, [])
    else .error "Not submitted"
  else .error "Not client"

/-- `resolveForWorker`: `onlyDisputeResolver`, requires state `Disputed`,
then `_completeTask`. -/
def resolveForWorker (xfer : Xfer) (disputeResolver : Nat) (task : Task)
    (sender : Nat) : Except String (Task × List (Nat × Nat)) :=
  if sender = disputeResolver then
    if task.state = TaskState.Disputed then _completeTask xfer task
    else .error "Not disputed"
  else .error "Not dispute resolver"

/-- `resolveForClient`: `onlyDisputeResolver`, requires state `Disputed`;
writes `state = Refunded`, then transfers `payment + workerStake` to the
client; the oracle observes the already-mutated record. -/
def resolveForClient (xfer : Xfer) (disputeResolver : Nat) (task : Task)
    (sender : Nat) : Except String (Task × List (Nat × Nat)) :=
  if sender = disputeResolver then
    if task.state = TaskState.Disputed then
      let totalPool := task.payment + task.workerStake
      let task' := { task with state := TaskState.Refunded }
      if xfer task'.client totalPool task' then
        .ok (task', [(task'.client, totalPool)])
      else .error "Refund failed"
    else .error "Not disputed"
  else .error "Not dispute resolver"

/-- `claimAfterTimeout`: `onlyWorker`, requires state `Submitted` and
`now > submittedAt + VERIFICATION_TIMEOUT` (strict), then
`_completeTask`. -/
def claimAfterTimeout (xfer : Xfer) (task : Task) (sender now : Nat) :
    Except String (Task × List (Nat × Nat)) :=
  if sender = task.worker then
    if task.state = TaskState.Submitted then
      if task.submittedAt + VERIFICATION_TIMEOUT < now then
        _completeTask xfer task
      else .error "Timeout not reached"
    else .error "Not submitted"
  else .error "Not worker"

/-- One external call into the escrow targeting a given task, with its
caller-controlled arguments and transfer-environment outcome. -/
inductive TaskOp where
  | accept (sender msgValue : Nat)
  | submit (sender resultHash now : Nat)
  | approve (sender : Nat) (xfer : Xfer)
  | dispute (sender : Nat)
  | resolveWorker (sender : Nat) (xfer : Xfer)
  | resolveClient (sender : Nat) (xfer : Xfer)
  | claimTimeout (sender now : Nat) (xfer : Xfer)

/-- Dispatch one call on a task; returns the new task record together
with the list of value transfers (recipient, amount) the call made. -/
def stepTask (disputeResolver : Nat) (task : Task) :
    TaskOp → Except String (Task × List (Nat × Nat))
  | .accept sender v => acceptTask task sender v
  | .submit sender rh now => submitResult task sender rh now
  | .approve sender xfer => approveResult xfer task sender
  | .dispute sender => disputeResult task sender
  | .resolveWorker sender xfer => resolveForWorker xfer disputeResolver task sender
  | .resolveClient sender xfer => resolveForClient xfer disputeResolver task sender
  | .claimTimeout sender now xfer => claimAfterTimeout xfer task sender now

/-- Run a sequence of calls on a task; a reverted call leaves the task
unchanged and makes no transfer.  Returns the final task record and all
transfers made, in order. -/
def runTask (disputeResolver : Nat) : Task → List TaskOp → Task × List (Nat × Nat)
  | task, [] => (task, [])
  | task, op :: ops =>
    match stepTask disputeResolver task op with
    | .error _ => runTask disputeResolver task ops
    | .ok (task', ps) =>
      let r := runTask disputeResolver task' ops
      (r.1, ps ++ r.2)

/-- The terminal states of the escrow state machine. -/
def isTerminal : TaskState → Bool
  | TaskState.Completed => true
  | TaskState.Refunded => true
  | _ => false

end TaskEscrow

namespace JuryPool

/-- `struct Juror` of JuryPool.sol. -/
structure Juror where
  agent : Nat
  stake : Nat
  reputation : Nat
  casesJudged : Nat
  correctVerdicts : Nat
  active : Bool
  deriving DecidableEq, Repr

/-- `MIN_STAKE = 0.01 ether`, in wei. -/
def MIN_STAKE : Nat := 10 ^ 16

/-- `MIN_REPUTATION = 10`. -/
def MIN_REPUTATION : Nat := 10

/-- The Solidity zero value of `struct Juror` (value of the `jurors`
mapping at an unset key). -/
def defaultJuror : Juror :=
  { agent := 0, stake := 0, reputation := 0, casesJudged := 0,
    correctVerdicts := 0, active := false }

/-- Contract storage of JuryPool.sol: the dense juror array, the two
mappings, and the owner-set configuration addresses. -/
structure PoolState where
  jurorList : List Nat
  jurors : Nat → Juror
  jurorIndex : Nat → Nat
  disputeResolver : Nat
  reputationRegistry : Nat

/-- Freshly deployed pool with configured resolver/registry addresses. -/
def emptyPool (resolver registry : Nat) : PoolState :=
  { jurorList := [], jurors := fun _ => defaultJuror, jurorIndex := fun _ => 0,
    disputeResolver := resolver, reputationRegistry := registry }

/-- `_getReputation`: returns the default 100 whether or not a registry
is configured (the registry call is commented out in the source). -/
def _getReputation (reputationRegistry agent : Nat) : Nat :=
  if reputationRegistry = 0 then 100 else 100

/-- `register`: requires `msg.value ≥ MIN_STAKE`, caller not already
active, reputation ≥ `MIN_REPUTATION`; overwrites the juror record,
records the index (pre-push length) and appends to the dense list. -/
def register (st : PoolState) (sender msgValue : Nat) : Except String PoolState :=
  if MIN_STAKE ≤ msgValue then
    if (st.jurors sender).active = false then
      let reputation := _getReputation st.reputationRegistry sender
      if MIN_REPUTATION ≤ reputation then
        .ok { st with
          jurors := fun a =>
            if a = sender then
              { agent := sender, stake := msgValue, reputation := reputation,
                casesJudged := 0, correctVerdicts := 0, active := true }
            else st.jurors a,
          jurorIndex := fun a =>
            if a = sender then st.jurorList.length else st.jurorIndex a,
          jurorList := st.jurorList ++ [sender] }
      else .error "Reputation too low"
    else .error "Already registered"
  else .error "Insufficient stake"

/-- `withdraw`: requires the caller active; deactivates and zeroes the
stake, removes the caller's slot via swap-with-last (updating the
displaced occupant's index) and pops, then attempts the stake transfer
(`xfer recipient amount`); a failed transfer reverts everything.  The
two array accesses that would panic in Solidity (empty array, index out
of range) are modelled as reverts. -/
def withdraw (xfer : Nat → Nat → Bool) (st : PoolState) (sender : Nat) :
    Except String (PoolState × Nat) :=
  let juror := st.jurors sender
  if juror.active = true then
    let stake := juror.stake
    let jurors' := fun a =>
      if a = sender then { juror with active := false, stake := 0 } else st.jurors a
    let idx := st.jurorIndex sender
    match st.jurorList.getLast? with
    | none => .error "panic: array out of range"
    | some lastJuror =>
      if idx < st.jurorList.length then
        let jurorList' := (st.jurorList.set idx lastJuror).dropLast
        let jurorIndex' := fun a =>
          if a = lastJuror then idx else st.jurorIndex a
        if xfer sender stake then
          .ok ({ st with jurors := jurors', jurorList := jurorList',
                         jurorIndex := jurorIndex' }, stake)
        else .error "Withdrawal failed"
      else .error "panic: array out of range"
  else .error "Not registered"

/-- The candidate-rejection loop of `selectJurors`.  `fuel` is the
remaining attempt budget (`maxAttempts - attempts`); `attempts` is the
source's counter, mixed into the seed advance `hash2 seed attempts`. -/
def selectLoop (lst : List Nat) (jurors : Nat → Juror)
    (excludeClient excludeWorker count : Nat) (hash2 : Nat → Nat → Nat) :
    Nat → Nat → Nat → List Nat → List Nat
  | 0, _, _, selected => selected
  | fuel + 1, seed, attempts, selected =>
    if selected.length < count then
      let idx := seed % lst.length
      let candidate := lst.getD idx 0
      let selected' :=
        if (candidate ≠ excludeClient ∧ candidate ≠ excludeWorker ∧
            candidate ∉ selected) ∧ (jurors candidate).active = true then
          selected ++ [candidate]
        else selected
      selectLoop lst jurors excludeClient excludeWorker count hash2 fuel
        (hash2 seed attempts) (attempts + 1) selected'
    else selected

/-- `selectJurors`: `onlyDisputeResolver`; requires
`jurorList.length ≥ count`; runs the bounded rejection loop with a
budget of `3 * jurorList.length` attempts and fails outright if fewer
than `count` jurors were collected.  `seed0` stands for
`keccak256(block.timestamp, block.prevrandao, disputeId)` and `hash2`
for `keccak256(seed, attempts)`. -/
def selectJurors (st : PoolState) (sender disputeId count excludeClient excludeWorker : Nat)
    (seed0 : Nat) (hash2 : Nat → Nat → Nat) : Except String (List Nat) :=
  if sender = st.disputeResolver then
    if count ≤ st.jurorList.length then
      let maxAttempts := st.jurorList.length * 3
      let selected := selectLoop st.jurorList st.jurors excludeClient excludeWorker
        count hash2 maxAttempts seed0 0 []
      if selected.length = count then .ok selected
      else .error "Could not select enough jurors"
    else .error "Not enough jurors"
  else .error "Not dispute resolver"

/-- `recordVerdict`: `onlyDisputeResolver`; silent no-op on an inactive
juror, otherwise increments the counters. -/
def recordVerdict (st : PoolState) (sender agent : Nat) (wasCorrect : Bool) :
    Except String PoolState :=
  if sender = st.disputeResolver then
    let juror := st.jurors agent
    if juror.active = false then .ok st
    else
      .ok { st with
        jurors := fun a =>
          if a = agent then
            { juror with
                casesJudged := juror.casesJudged + 1,
                correctVerdicts :=
                  juror.correctVerdicts + (if wasCorrect then 1 else 0) }
          else st.jurors a }
  else .error "Not dispute resolver"

/-- `slashStake`: `onlyDisputeResolver`; requires the juror active;
clamps the amount to the posted stake, deducts it, and deactivates when
the remaining stake falls below `MIN_STAKE`. -/
def slashStake (st : PoolState) (sender agent amount : Nat) :
    Except String PoolState :=
  if sender = st.disputeResolver then
    let juror := st.jurors agent
    if juror.active = true then
      let amount' := if juror.stake < amount then juror.stake else amount
      let stake' := juror.stake - amount'
      let active' := if stake' < MIN_STAKE then false else juror.active
      .ok { st with
        jurors := fun a =>
          if a = agent then { juror with stake := stake', active := active' }
          else st.jurors a }
    else .error "Not active juror"
  else .error "Not dispute resolver"

/-- `getActiveJurorCount` of the source: it returns the dense-list
length (which also counts deactivated jurors still in the list). -/
def getActiveJurorCount (st : PoolState) : Nat := st.jurorList.length

/-- The number of list entries whose juror record is currently active
(the spec's notion of active-juror count). -/
def numActiveJurors (st : PoolState) : Nat :=
  (st.jurorList.filter fun a => (st.jurors a).active).length

/-- One external call into the pool, with caller-controlled arguments
and environment outcomes. -/
inductive PoolOp where
  | register (sender msgValue : Nat)
  | withdraw (sender : Nat) (xfer : Nat → Nat → Bool)
  | selectJurors (sender disputeId count excludeClient excludeWorker seed0 : Nat)
      (hash2 : Nat → Nat → Nat)
  | recordVerdict (sender agent : Nat) (wasCorrect : Bool)
  | slashStake (sender agent amount : Nat)

/-- Dispatch one call on the pool, keeping only the resulting storage. -/
def poolStep (st : PoolState) : PoolOp → Except String PoolState
  | .register sender v => register st sender v
  | .withdraw sender xfer => (withdraw xfer st sender).map Prod.fst
  | .selectJurors sender d c eC eW s0 h2 =>
      (selectJurors st sender d c eC eW s0 h2).map fun _ => st
  | .recordVerdict sender agent w => recordVerdict st sender agent w
  | .slashStake sender agent amount => slashStake st sender agent amount

/-- Projection of an `Except` pool computation, defaulting on error. -/
def okD (e : Except String PoolState) (d : PoolState) : PoolState :=
  match e with
  | .ok st => st
  | .error _ => d

/-- Whether an `Except` pool computation succeeded. -/
def isOkP (e : Except String PoolState) : Bool :=
  match e with
  | .ok _ => true
  | .error _ => false

/-- Iterate pool calls from a state; a reverted call leaves storage
unchanged and the run continues. -/
def runPool (st : PoolState) : List PoolOp → PoolState
  | [] => st
  | op :: ops =>
    match poolStep st op with
    | .error _ => runPool st ops
    | .ok st' => runPool st' ops

/-- Invariant: an active juror always has at least `MIN_STAKE` posted. -/
def StakeInv (st : PoolState) : Prop :=
  ∀ a, (st.jurors a).active = true → MIN_STAKE ≤ (st.jurors a).stake

/-- Invariant: every active juror's recorded index denotes a dense-list
slot that holds that juror. -/
def IndexInv (st : PoolState) : Prop :=
  ∀ a, (st.jurors a).active = true → st.jurorList[st.jurorIndex a]? = some a

/-- Pool reached by: juror 1 registers with exactly `MIN_STAKE`
(resolver address 7, no reputation registry). -/
def onePool : Except String PoolState := register (emptyPool 7 0) 1 MIN_STAKE

/-- ... then the resolver slashes juror 1's full stake: juror 1 is
deactivated but remains in the dense list. -/
def slashedPool : Except String PoolState :=
  onePool >>= fun st => slashStake st 7 1 MIN_STAKE

/-- ... or the resolver slashes a single wei: juror 1 keeps a positive
remainder below `MIN_STAKE` and is deactivated as a side effect. -/
def slashedPool1 : Except String PoolState :=
  onePool >>= fun st => slashStake st 7 1 1

/-- ... after the full slash, juror 1 registers again: the dense list
now holds juror 1 twice, with the index map pointing at the new slot. -/
def reregPool : Except String PoolState :=
  slashedPool >>= fun st => register st 1 MIN_STAKE

/-- Two-juror pool used by the selection witness. -/
def twoPool : Except String PoolState :=
  register (emptyPool 7 0) 1 MIN_STAKE >>= fun st => register st 2 MIN_STAKE

end JuryPool

namespace TaskEscrow

/-- A task in state `Submitted` used by witnesses. -/
def sampleTaskS : Task :=
  { client := 1, worker := 2, payment := 100, workerStake := 10, specHash := 5,
    resultHash := 6, state := TaskState.Submitted, createdAt := 0, submittedAt := 50 }

/-- A task in state `Disputed` used by witnesses. -/
def sampleTaskD : Task := { sampleTaskS with state := TaskState.Disputed }

/-- A task in state `Created` used by witnesses. -/
def sampleTaskC : Task :=
  { client := 1, worker := 0, payment := 100, workerStake := 0, specHash := 5,
    resultHash := 0, state := TaskState.Created, createdAt := 0, submittedAt := 0 }

/-- Transfer environment in which every transfer succeeds. -/
def xferT : Xfer := fun _ _ _ => true

/-- Transfer environment in which every transfer fails. -/
def xferF : Xfer := fun _ _ _ => false

/-- Transfer environment that succeeds exactly when the task record it
observes during the call is already in a terminal state; it exhibits the
checks-effects-interactions ordering of the payout paths. -/
def xferObs : Xfer := fun _ _ t => isTerminal t.state

end TaskEscrow

namespace TaskEscrow

theorem stepTask_terminal {r : Nat} {task : Task} (op : TaskOp)
    (h : isTerminal task.state = true) :
    ∀ x, stepTask r task op ≠ Except.ok x := by
  intro x hc
  cases op <;>
    simp only [stepTask, acceptTask, submitResult, approveResult, disputeResult,
      resolveForWorker, resolveForClient, claimAfterTimeout, _completeTask] at hc <;>
    (repeat' split at hc) <;>
    simp_all [isTerminal]

theorem stepTask_ok_payouts {r : Nat} {task t' : Task} {ps : List (Nat × Nat)}
    (op : TaskOp) (h : stepTask r task op = Except.ok (t', ps)) :
    (isTerminal t'.state = false ∧ ps = []) ∨
    (isTerminal t'.state = true ∧ (∃ p, ps = [(p, t'.payment + t'.workerStake)]) ∧
      t'.payment = task.payment ∧ t'.workerStake = task.workerStake) := by
  cases op <;>
    simp only [stepTask, acceptTask, submitResult, approveResult, disputeResult,
      resolveForWorker, resolveForClient, claimAfterTimeout, _completeTask] at h <;>
    (repeat' split at h) <;>
    simp_all [isTerminal] <;>
    (try cases h.1) <;> (try cases h.2) <;> simp_all [isTerminal]

theorem runTask_terminal {r : Nat} {task : Task} (h : isTerminal task.state = true) :
    ∀ ops, runTask r task ops = (task, []) := by
  intro ops
  induction ops with
  | nil => rfl
  | cons op ops ih =>
    simp only [runTask]
    cases hs : stepTask r task op with
    | error e => exact ih
    | ok x => exact absurd hs (stepTask_terminal op h x)

theorem runTask_payouts {r : Nat} :
    ∀ (ops : List TaskOp) (task : Task), isTerminal task.state = false →
      (isTerminal (runTask r task ops).1.state = false → (runTask r task ops).2 = []) ∧
      (isTerminal (runTask r task ops).1.state = true →
        ∃ p, (runTask r task ops).2 =
          [(p, (runTask r task ops).1.payment + (runTask r task ops).1.workerStake)]) := by
  intro ops
  induction ops with
  | nil =>
    intro task h
    refine ⟨fun _ => rfl, fun ht => ?_⟩
    rw [runTask] at ht
    exact absurd ht (by simp [h])
  | cons op ops ih =>
    intro task h
    simp only [runTask]
    cases hs : stepTask r task op with
    | error e => exact ih task h
    | ok x =>
      obtain ⟨t', ps⟩ := x
      dsimp only
      rcases stepTask_ok_payouts op hs with ⟨hnt, hps⟩ | ⟨ht, ⟨p, hps⟩, _, _⟩
      · subst hps
        simpa using ih t' hnt
      · subst hps
        rw [runTask_terminal ht ops]
        refine ⟨fun hf => absurd ht (by simp [hf]), fun _ => ⟨p, by simp⟩⟩

theorem createTask_state {sender v sh now : Nat} {t : Task}
    (h : createTask sender v sh now = Except.ok t) : isTerminal t.state = false := by
  rw [createTask] at h
  split at h
  · cases h; rfl
  · cases h

/-- C1: for every task, over any sequence of escrow calls starting from
creation, the total value paid out never exceeds `payment + workerStake`;
once the task is in a terminal state exactly one payout of exactly
`payment + workerStake` has been made, and while it is not terminal no
payout has been made at all. -/
theorem C1_single_payout_per_task (resolver sender msgValue specHash now : Nat)
    (ops : List TaskOp) (t0 : Task)
    (h0 : createTask sender msgValue specHash now = Except.ok t0) :
    ((runTask resolver t0 ops).2.map Prod.snd).sum ≤
      (runTask resolver t0 ops).1.payment + (runTask resolver t0 ops).1.workerStake ∧
    (isTerminal (runTask resolver t0 ops).1.state = true →
      ∃ p, (runTask resolver t0 ops).2 =
        [(p, (runTask resolver t0 ops).1.payment +
             (runTask resolver t0 ops).1.workerStake)]) ∧
    (isTerminal (runTask resolver t0 ops).1.state = false →
      (runTask resolver t0 ops).2 = []) := by
  have h := runTask_payouts (r := resolver) ops t0 (createTask_state h0)
  refine ⟨?_, h.2, h.1⟩
  cases hf : isTerminal (runTask resolver t0 ops).1.state
  · rw [h.1 hf]; simp
  · obtain ⟨p, hp⟩ := h.2 hf
    rw [hp]; simp

/-- Witness for C1 at a concrete created task and call sequence. -/
theorem C1_single_payout_per_task_witness :
    ((runTask 9 sampleTaskC [TaskOp.accept 2 10, TaskOp.submit 2 7 50,
        TaskOp.approve 1 xferT]).2.map Prod.snd).sum ≤
      (runTask 9 sampleTaskC [TaskOp.accept 2 10, TaskOp.submit 2 7 50,
        TaskOp.approve 1 xferT]).1.payment +
      (runTask 9 sampleTaskC [TaskOp.accept 2 10, TaskOp.submit 2 7 50,
        TaskOp.approve 1 xferT]).1.workerStake :=
  (C1_single_payout_per_task 9 1 100 5 0
    [TaskOp.accept 2 10, TaskOp.submit 2 7 50, TaskOp.approve 1 xferT]
    sampleTaskC rfl).1

/-- C2: every payout path writes the terminal state into the task record
before the value transfer is attempted (the transfer oracle observes the
already-mutated record), succeeds with exactly the
`payment + workerStake` transfer when the transfer succeeds, and reverts
as a whole (the pre-call record stays observable and no transfer is
recorded) when the transfer fails. -/
theorem C2_state_mutation_before_transfer (resolver : Nat) (task : Task)
    (sender now : Nat) (xfer : Xfer) (op : TaskOp) :
    (sender = task.client → task.state = TaskState.Submitted →
      stepTask resolver task (TaskOp.approve sender xfer) =
        (if xfer task.worker (task.payment + task.workerStake)
              { task with state := TaskState.Completed } then
          Except.ok ({ task with state := TaskState.Completed },
            [(task.worker, task.payment + task.workerStake)])
        else Except.error "Payment failed")) ∧
    (sender = task.worker → task.state = TaskState.Submitted →
      task.submittedAt + VERIFICATION_TIMEOUT < now →
      stepTask resolver task (TaskOp.claimTimeout sender now xfer) =
        (if xfer task.worker (task.payment + task.workerStake)
              { task with state := TaskState.Completed } then
          Except.ok ({ task with state := TaskState.Completed },
            [(task.worker, task.payment + task.workerStake)])
        else Except.error "Payment failed")) ∧
    (sender = resolver → task.state = TaskState.Disputed →
      stepTask resolver task (TaskOp.resolveWorker sender xfer) =
        (if xfer task.worker (task.payment + task.workerStake)
              { task with state := TaskState.Completed } then
          Except.ok ({ task with state := TaskState.Completed },
            [(task.worker, task.payment + task.workerStake)])
        else Except.error "Payment failed")) ∧
    (sender = resolver → task.state = TaskState.Disputed →
      stepTask resolver task (TaskOp.resolveClient sender xfer) =
        (if xfer task.client (task.payment + task.workerStake)
              { task with state := TaskState.Refunded } then
          Except.ok ({ task with state := TaskState.Refunded },
            [(task.client, task.payment + task.workerStake)])
        else Except.error "Refund failed")) ∧
    (∀ e, stepTask resolver task op = Except.error e →
      runTask resolver task [op] = (task, [])) := by
  refine ⟨?_, ?_, ?_, ?_, ?_⟩
  · intro h1 h2; subst h1
    simp [stepTask, approveResult, _completeTask, h2]
  · intro h1 h2 h3; subst h1
    simp [stepTask, claimAfterTimeout, _completeTask, h2, h3]
  · intro h1 h2; subst h1
    simp [stepTask, resolveForWorker, _completeTask, h2]
  · intro h1 h2; subst h1
    simp [stepTask, resolveForClient, h2]
  · intro e he
    simp [runTask, he]

/-- Witness for C2: with an oracle that succeeds only when it observes a
terminal state, the payout succeeds (the state was written first); with a
failing oracle the whole call reverts and the pre-call record survives. -/
theorem C2_state_mutation_before_transfer_witness :
    stepTask 9 sampleTaskS (TaskOp.approve 1 xferObs) =
      Except.ok ({ sampleTaskS with state := TaskState.Completed }, [(2, 110)]) ∧
    stepTask 9 sampleTaskS (TaskOp.approve 1 xferF) = Except.error "Payment failed" ∧
    stepTask 9 sampleTaskD (TaskOp.resolveClient 9 xferT) =
      Except.ok ({ sampleTaskD with state := TaskState.Refunded }, [(1, 110)]) ∧
    runTask 9 sampleTaskS [TaskOp.approve 1 xferF] = (sampleTaskS, []) := by
  refine ⟨?_, ?_, ?_, ?_⟩
  · exact ((C2_state_mutation_before_transfer 9 sampleTaskS 1 0 xferObs
      (TaskOp.approve 1 xferObs)).1 rfl rfl).trans rfl
  · exact ((C2_state_mutation_before_transfer 9 sampleTaskS 1 0 xferF
      (TaskOp.approve 1 xferF)).1 rfl rfl).trans rfl
  · exact ((C2_state_mutation_before_transfer 9 sampleTaskD 9 0 xferT
      (TaskOp.resolveClient 9 xferT)).2.2.2.1 rfl rfl).trans rfl
  · exact (C2_state_mutation_before_transfer 9 sampleTaskS 1 0 xferF
      (TaskOp.approve 1 xferF)).2.2.2.2 "Payment failed" rfl

/-- C7: on a task in state `Created`, acceptance succeeds exactly for
offers of at least `payment * 10 / 100` (integer floor division); any
successful offer, including any excess above the floor, is retained in
full as `workerStake`, and any smaller offer is rejected with
"Insufficient stake". -/
theorem C7_acceptTask_stake_threshold (resolver : Nat) (task : Task) (sender : Nat)
    (h : task.state = TaskState.Created) :
    (∀ v, task.payment * WORKER_STAKE_PERCENT / 100 ≤ v →
      stepTask resolver task (TaskOp.accept sender v) =
        Except.ok ({ task with
          worker := sender, workerStake := v, state := TaskState.Accepted }, [])) ∧
    (∀ v, v < task.payment * WORKER_STAKE_PERCENT / 100 →
      stepTask resolver task (TaskOp.accept sender v) =
        Except.error "Insufficient stake") := by
  constructor
  · intro v hv
    simp [stepTask, acceptTask, h, hv]
  · intro v hv
    simp [stepTask, acceptTask, h, not_le.mpr hv]

/-- Witness for C7: payment 100 requires a stake of 10; offering 10
succeeds, offering 9 fails, offering 50 retains all 50 as stake. -/
theorem C7_acceptTask_stake_threshold_witness :
    stepTask 9 sampleTaskC (TaskOp.accept 2 10) =
      Except.ok ({ sampleTaskC with
        worker := 2, workerStake := 10, state := TaskState.Accepted }, []) ∧
    stepTask 9 sampleTaskC (TaskOp.accept 2 9) = Except.error "Insufficient stake" ∧
    stepTask 9 sampleTaskC (TaskOp.accept 2 50) =
      Except.ok ({ sampleTaskC with
        worker := 2, workerStake := 50, state := TaskState.Accepted }, []) := by
  have h := C7_acceptTask_stake_threshold 9 sampleTaskC 2 rfl
  exact ⟨h.1 10 (by decide), h.2 9 (by decide), h.1 50 (by decide)⟩

/-- C8: for the task's worker on a `Submitted` task, `claimAfterTimeout`
fails at `submittedAt + VERIFICATION_TIMEOUT` exactly (the comparison is
strict) and succeeds one time-unit later with the same payout as
approval: `payment + workerStake` to the worker. -/
theorem C8_claimAfterTimeout_strict (resolver sender : Nat) (task : Task) (xfer : Xfer)
    (hw : sender = task.worker) (hs : task.state = TaskState.Submitted) :
    stepTask resolver task
      (TaskOp.claimTimeout sender (task.submittedAt + VERIFICATION_TIMEOUT) xfer) =
      Except.error "Timeout not reached" ∧
    (xfer task.worker (task.payment + task.workerStake)
        { task with state := TaskState.Completed } = true →
      stepTask resolver task
        (TaskOp.claimTimeout sender (task.submittedAt + VERIFICATION_TIMEOUT + 1) xfer) =
        Except.ok ({ task with state := TaskState.Completed },
          [(task.worker, task.payment + task.workerStake)])) := by
  subst hw
  constructor
  · simp [stepTask, claimAfterTimeout, hs]
  · intro hx
    simp [stepTask, claimAfterTimeout, _completeTask, hs, hx]

/-- Witness for C8 at a concrete `Submitted` task. -/
theorem C8_claimAfterTimeout_strict_witness :
    stepTask 9 sampleTaskS
      (TaskOp.claimTimeout 2 (sampleTaskS.submittedAt + VERIFICATION_TIMEOUT) xferT) =
      Except.error "Timeout not reached" ∧
    stepTask 9 sampleTaskS
      (TaskOp.claimTimeout 2 (sampleTaskS.submittedAt + VERIFICATION_TIMEOUT + 1) xferT) =
      Except.ok ({ sampleTaskS with state := TaskState.Completed },
        [(sampleTaskS.worker, sampleTaskS.payment + sampleTaskS.workerStake)]) := by
  have h := C8_claimAfterTimeout_strict 9 2 sampleTaskS xferT rfl rfl
  exact ⟨h.1, h.2 rfl⟩

/-- C10: `acceptTask` places no restriction on the caller relative to the
task: on a `Created` task any caller offering enough stake is recorded as
worker — in particular the task's own client, who can then submit and
approve the task themselves, collecting the payout. -/
theorem C10_acceptTask_no_caller_restriction (resolver now rh v : Nat) (task : Task)
    (h : task.state = TaskState.Created)
    (hv : task.payment * WORKER_STAKE_PERCENT / 100 ≤ v) :
    (∀ sender, stepTask resolver task (TaskOp.accept sender v) =
      Except.ok ({ task with
        worker := sender, workerStake := v, state := TaskState.Accepted }, [])) ∧
    runTask resolver task
      [TaskOp.accept task.client v, TaskOp.submit task.client rh now,
       TaskOp.approve task.client xferT] =
      ({ task with
         worker := task.client, workerStake := v, resultHash := rh,
         submittedAt := now, state := TaskState.Completed },
       [(task.client, task.payment + v)]) := by
  constructor
  · intro sender
    simp [stepTask, acceptTask, h, hv]
  · simp [runTask, stepTask, acceptTask, submitResult, approveResult, _completeTask,
      xferT, h, hv]

/-- Witness for C10: the client of a concrete task accepts, submits and
approves it alone, ending `Completed` with the payout to the client. -/
theorem C10_acceptTask_no_caller_restriction_witness :
    runTask 9 sampleTaskC
      [TaskOp.accept sampleTaskC.client 10, TaskOp.submit sampleTaskC.client 6 50,
       TaskOp.approve sampleTaskC.client xferT] =
      ({ sampleTaskC with
         worker := sampleTaskC.client, workerStake := 10,
         resultHash := 6, submittedAt := 50, state := TaskState.Completed },
       [(sampleTaskC.client, sampleTaskC.payment + 10)]) :=
  (C10_acceptTask_no_caller_restriction 9 50 6 10 sampleTaskC rfl (by decide)).2

end TaskEscrow

namespace JuryPool

theorem selectLoop_sound (lst : List Nat) (jurors : Nat → Juror)
    (eC eW count : Nat) (hash2 : Nat → Nat → Nat) :
    ∀ (fuel seed attempts : Nat) (selected : List Nat),
      selected.Nodup →
      (∀ x ∈ selected, (jurors x).active = true ∧ x ≠ eC ∧ x ≠ eW) →
      (selectLoop lst jurors eC eW count hash2 fuel seed attempts selected).Nodup ∧
      ∀ x ∈ selectLoop lst jurors eC eW count hash2 fuel seed attempts selected,
        (jurors x).active = true ∧ x ≠ eC ∧ x ≠ eW := by
  intro fuel
  induction fuel with
  | zero =>
    intro seed attempts selected h1 h2
    exact ⟨h1, h2⟩
  | succ fuel ih =>
    intro seed attempts selected h1 h2
    rw [selectLoop]
    by_cases hlen : selected.length < count
    · rw [if_pos hlen]
      dsimp only
      by_cases hcond : (lst.getD (seed % lst.length) 0 ≠ eC ∧
          lst.getD (seed % lst.length) 0 ≠ eW ∧
          lst.getD (seed % lst.length) 0 ∉ selected) ∧
          (jurors (lst.getD (seed % lst.length) 0)).active = true
      · rw [if_pos hcond]
        apply ih
        · rw [List.nodup_append]
          refine ⟨h1, List.nodup_singleton _, ?_⟩
          intro a ha hb
          rw [List.mem_singleton] at hb
          subst hb
          exact hcond.1.2.2 ha
        · intro x hx
          rcases List.mem_append.mp hx with hx | hx
          · exact h2 x hx
          · rw [List.mem_singleton] at hx
            subst hx
            exact ⟨hcond.2, hcond.1.1, hcond.1.2.1⟩
      · rw [if_neg hcond]
        exact ih (hash2 seed attempts) (attempts + 1) selected h1 h2
    · rw [if_neg hlen]
      exact ⟨h1, h2⟩

/-- C6: whenever `selectJurors` returns instead of failing, the returned
list has exactly `count` pairwise-distinct entries, all of them active
jurors and none equal to either excluded identity; this holds for every
seed and hash function, and a run that cannot collect `count` jurors
within the `3 * poolSize` attempt budget fails outright instead of
returning a short list. -/
theorem C6_selectJurors_sound (st : PoolState)
    (sender disputeId count eC eW seed0 : Nat) (hash2 : Nat → Nat → Nat)
    (l : List Nat)
    (h : selectJurors st sender disputeId count eC eW seed0 hash2 = Except.ok l) :
    l.length = count ∧ l.Nodup ∧
      ∀ x ∈ l, (st.jurors x).active = true ∧ x ≠ eC ∧ x ≠ eW := by
  rw [selectJurors] at h
  split at h
  · dsimp only at h
    split at h
    · split at h
      · rename_i hlen
        cases h
        have hs := selectLoop_sound st.jurorList st.jurors eC eW count hash2
          (st.jurorList.length * 3) seed0 0 [] (List.nodup_nil)
          (by intro x hx; cases hx)
        exact ⟨hlen, hs.1, hs.2⟩
      · cases h
    · cases h
  · cases h

/-- Witness for C6: a two-juror pool, committee size 2, excluded parties
9 and 8; the selection succeeds and returns both jurors, distinct and
active. -/
theorem C6_selectJurors_sound_witness :
    List.Nodup [1, 2] ∧
    ((okD twoPool (emptyPool 7 0)).jurors 1).active = true ∧
    ((okD twoPool (emptyPool 7 0)).jurors 2).active = true ∧
    (1 : Nat) ≠ 9 ∧ (2 : Nat) ≠ 8 := by
  have h := C6_selectJurors_sound (okD twoPool (emptyPool 7 0)) 7 0 2 9 8 0
    (fun s _ => s + 1) [1, 2] rfl
  exact ⟨h.2.1, (h.2.2 1 (by decide)).1, (h.2.2 2 (by decide)).1,
    (h.2.2 1 (by decide)).2.1, (h.2.2 2 (by decide)).2.2⟩

/-- C3 (amended): the precondition of `selectJurors` checks the dense
list length (which may still count deactivated jurors), not the number of
currently active jurors: when the list itself is shorter than `count` the
call is rejected with the precondition failure "Not enough jurors". -/
theorem C3_list_length_precondition (st : PoolState)
    (sender disputeId count eC eW seed0 : Nat) (hash2 : Nat → Nat → Nat)
    (hs : sender = st.disputeResolver) (hlen : st.jurorList.length < count) :
    selectJurors st sender disputeId count eC eW seed0 hash2 =
      Except.error "Not enough jurors" := by
  rw [selectJurors, if_pos hs, if_neg (not_le.mpr hlen)]

/-- Witness for C3 (amended) on the empty pool. -/
theorem C3_list_length_precondition_witness :
    selectJurors (emptyPool 7 0) 7 0 1 98 99 0 (fun s a => s + a + 1) =
      Except.error "Not enough jurors" :=
  C3_list_length_precondition (emptyPool 7 0) 7 0 1 98 99 0 (fun s a => s + a + 1)
    rfl (by decide)

/-- Counterexample for C3: juror 1 registers and is then slashed to zero,
leaving it deactivated but still in the dense list.  With zero active
jurors and `count = 1` the call is not rejected by the insufficient-juror
precondition ("Not enough jurors"): it passes the length check and fails
only after exhausting the attempt budget, with "Could not select enough
jurors". -/
theorem C3_active_count_counterexample :
    isOkP slashedPool = true ∧
    numActiveJurors (okD slashedPool (emptyPool 7 0)) = 0 ∧
    (0 : Nat) < 1 ∧
    selectJurors (okD slashedPool (emptyPool 7 0)) 7 0 1 98 99 0
      (fun s a => s + a + 1) = Except.error "Could not select enough jurors" ∧
    selectJurors (okD slashedPool (emptyPool 7 0)) 7 0 1 98 99 0
      (fun s a => s + a + 1) ≠ Except.error "Not enough jurors" := by
  refine ⟨by decide, by decide, by decide, rfl, ?_⟩
  intro hbad
  have heq : ("Could not select enough jurors" : String) = "Not enough jurors" :=
    Except.error.inj ((rfl :
      selectJurors (okD slashedPool (emptyPool 7 0)) 7 0 1 98 99 0
        (fun s a => s + a + 1) =
      Except.error "Could not select enough jurors").symm.trans hbad)
  exact (by decide : ("Could not select enough jurors" : String) ≠ "Not enough jurors") heq

/-- C4 (amended): `withdraw` requires the caller to be active, so a juror
deactivated as a side effect of `slashStake` cannot withdraw the
remaining stake: the call is rejected with "Not registered" and the
remainder stays locked in the contract. -/
theorem C4_withdraw_requires_active (st st' : PoolState)
    (sender agent amount : Nat) (xfer : Nat → Nat → Bool)
    (h : slashStake st sender agent amount = Except.ok st')
    (hd : (st'.jurors agent).active = false) :
    withdraw xfer st' agent = Except.error "Not registered" := by
  rw [withdraw]
  simp [hd]

/-- Witness for C4 (amended): the 1-wei slash of juror 1 deactivates it;
its withdrawal attempt is rejected. -/
theorem C4_withdraw_requires_active_witness :
    withdraw (fun _ _ => true) (okD slashedPool1 (emptyPool 7 0)) 1 =
      Except.error "Not registered" :=
  C4_withdraw_requires_active (okD onePool (emptyPool 7 0))
    (okD slashedPool1 (emptyPool 7 0)) 7 1 1 (fun _ _ => true) rfl rfl

/-- Counterexample for C4: juror 1 registers with exactly `MIN_STAKE`;
a 1-wei slash leaves a positive remainder below `MIN_STAKE` and
deactivates the juror; the subsequent `withdraw` is rejected instead of
returning the remainder. -/
theorem C4_withdraw_after_slash_counterexample :
    isOkP slashedPool1 = true ∧
    ((okD slashedPool1 (emptyPool 7 0)).jurors 1).active = false ∧
    0 < ((okD slashedPool1 (emptyPool 7 0)).jurors 1).stake ∧
    withdraw (fun _ _ => true) (okD slashedPool1 (emptyPool 7 0)) 1 =
      Except.error "Not registered" :=
  ⟨by decide, by decide, by decide, rfl⟩

/-- Counterexample for C5: register juror 1, slash it to deactivation,
register it again — the dense list now holds juror 1 in two slots while
the index map points at the newer slot, so the occupant of slot 0 has
recorded index 1 ≠ 0: the slot-to-index half of the claimed invariant
fails after this operation sequence. -/
theorem C5_slot_consistency_counterexample :
    isOkP reregPool = true ∧
    (okD reregPool (emptyPool 7 0)).jurorList = [1, 1] ∧
    (okD reregPool (emptyPool 7 0)).jurorList[0]? = some 1 ∧
    (okD reregPool (emptyPool 7 0)).jurorIndex 1 = 1 ∧
    (1 : Nat) ≠ 0 :=
  ⟨by decide, by decide, by decide, by decide, by decide⟩

/-- C9: every pool operation preserves the invariant that an active juror
has at least `MIN_STAKE` posted: registration activates only with at
least `MIN_STAKE`, slashing deactivates whenever the post-slash stake
falls below `MIN_STAKE`, and withdrawal deactivates while zeroing the
stake. -/
theorem C9_active_min_stake_invariant (st st' : PoolState) (op : PoolOp)
    (hinv : StakeInv st) (h : poolStep st op = Except.ok st') : StakeInv st' := by
  cases op with
  | register sender v =>
    rw [poolStep, register] at h
    split at h
    case isTrue hval =>
      split at h
      case isTrue hact =>
        dsimp only at h
        split at h
        case isTrue hrep =>
          cases h
          intro a ha
          dsimp only at ha ⊢
          by_cases hx : a = sender
          · subst hx
            simp only [if_pos rfl] at ha ⊢
            exact hval
          · simp only [if_neg hx] at ha ⊢
            exact hinv a ha
        case isFalse hf => cases h
      case isFalse hf => cases h
    case isFalse hf => cases h
  | withdraw sender xfer =>
    rw [poolStep, withdraw] at h
    dsimp only at h
    split at h
    case isTrue hact =>
      cases hlast : st.jurorList.getLast? with
      | none => rw [hlast] at h; cases h
      | some lastJuror =>
        rw [hlast] at h
        dsimp only at h
        split at h
        case isTrue hlt =>
          split at h
          case isTrue hx =>
            simp only [Except.map] at h
            cases h
            intro a ha
            dsimp only at ha ⊢
            by_cases hs : a = sender
            · subst hs
              simp at ha
            · simp only [if_neg hs] at ha ⊢
              exact hinv a ha
          case isFalse hf => cases h
        case isFalse hf => cases h
    case isFalse hf => cases h
  | selectJurors sender d c eC eW s0 h2 =>
    rw [poolStep] at h
    cases hres : selectJurors st sender d c eC eW s0 h2 with
    | error e =>
      rw [hres] at h
      simp only [Except.map] at h
      cases h
    | ok l =>
      rw [hres] at h
      simp only [Except.map] at h
      cases h
      exact hinv
  | recordVerdict sender agent w =>
    rw [poolStep, recordVerdict] at h
    by_cases hres : sender = st.disputeResolver
    · rw [if_pos hres] at h
      dsimp only at h
      by_cases hact : (st.jurors agent).active = false
      · rw [if_pos hact] at h
        cases h
        exact hinv
      · rw [if_neg hact] at h
        cases h
        intro a ha
        dsimp only at ha ⊢
        by_cases hx : a = agent
        · subst hx
          simp at ha ⊢
          exact hinv a ha
        · simp only [if_neg hx] at ha ⊢
          exact hinv a ha
    · rw [if_neg hres] at h
      cases h
  | slashStake sender agent amount =>
    rw [poolStep, slashStake] at h
    by_cases hres : sender = st.disputeResolver
    · rw [if_pos hres] at h
      dsimp only at h
      by_cases hact : (st.jurors agent).active = true
      · rw [if_pos hact] at h
        cases h
        intro a ha
        dsimp only at ha ⊢
        by_cases hx : a = agent
        · subst hx
          simp at ha ⊢
          exact ha.1
        · simp only [if_neg hx] at ha ⊢
          exact hinv a ha
      · rw [if_neg hact] at h
        cases h
    · rw [if_neg hres] at h
      cases h

/-- Witness for C9: the empty pool satisfies the invariant and a concrete
registration preserves it at juror 1. -/
theorem C9_active_min_stake_invariant_witness :
    MIN_STAKE ≤ ((okD onePool (emptyPool 7 0)).jurors 1).stake :=
  C9_active_min_stake_invariant (emptyPool 7 0) (okD onePool (emptyPool 7 0))
    (PoolOp.register 1 MIN_STAKE)
    (fun a ha => absurd ha (by simp [emptyPool, defaultJuror])) rfl
    1 rfl

theorem indexInv_poolStep (st st' : PoolState) (op : PoolOp)
    (hinv : IndexInv st) (h : poolStep st op = Except.ok st') : IndexInv st' := by
  cases op with
  | register sender v =>
    rw [poolStep, register] at h
    split at h
    case isTrue hval =>
      split at h
      case isTrue hact =>
        dsimp only at h
        split at h
        case isTrue hrep =>
          cases h
          intro a ha
          dsimp only at ha ⊢
          by_cases hx : a = sender
          · subst hx
            simp only [if_pos rfl]
            exact List.getElem?_concat_length _ _
          · simp only [if_neg hx] at ha ⊢
            have hinva := hinv a ha
            obtain ⟨hjlt, _⟩ := List.getElem?_eq_some_iff.mp hinva
            rw [List.getElem?_append_left hjlt]
            exact hinva
        case isFalse hf => cases h
      case isFalse hf => cases h
    case isFalse hf => cases h
  | withdraw sender xfer =>
    rw [poolStep, withdraw] at h
    dsimp only at h
    split at h
    case isTrue hact =>
      cases hlast : st.jurorList.getLast? with
      | none => rw [hlast] at h; cases h
      | some lastJuror =>
        rw [hlast] at h
        dsimp only at h
        split at h
        case isTrue hlt =>
          split at h
          case isTrue hx =>
            simp only [Except.map] at h
            cases h
            have hsender := hinv sender hact
            have hlastget : st.jurorList[st.jurorList.length - 1]? = some lastJuror := by
              rw [← List.getLast?_eq_getElem?]
              exact hlast
            intro a ha
            dsimp only at ha ⊢
            by_cases hs : a = sender
            · subst hs
              simp at ha
            · simp only [if_neg hs] at ha
              have hinva := hinv a ha
              obtain ⟨hjlt, _⟩ := List.getElem?_eq_some_iff.mp hinva
              by_cases hl : a = lastJuror
              · rw [if_pos hl]
                have hisne : st.jurorIndex sender ≠ st.jurorList.length - 1 := by
                  intro he
                  rw [he, hlastget] at hsender
                  exact hs (hl.trans (Option.some.inj hsender))
                have hilt1 : st.jurorIndex sender < st.jurorList.length - 1 := by
                  omega
                rw [List.getElem?_dropLast, List.length_set, if_pos hilt1,
                  List.getElem?_set_self (by omega), hl]
              · rw [if_neg hl]
                have hji : st.jurorIndex a ≠ st.jurorIndex sender := by
                  intro he
                  rw [he, hsender] at hinva
                  exact hs (Option.some.inj hinva).symm
                have hjne : st.jurorIndex a ≠ st.jurorList.length - 1 := by
                  intro he
                  rw [he, hlastget] at hinva
                  exact hl (Option.some.inj hinva).symm
                have hjlt1 : st.jurorIndex a < st.jurorList.length - 1 := by
                  omega
                rw [List.getElem?_dropLast, List.length_set, if_pos hjlt1,
                  List.getElem?_set_ne (fun he => hji he.symm)]
                exact hinva
          case isFalse hf => cases h
        case isFalse hf => cases h
    case isFalse hf => cases h
  | selectJurors sender d c eC eW s0 h2 =>
    rw [poolStep] at h
    cases hres : selectJurors st sender d c eC eW s0 h2 with
    | error e =>
      rw [hres] at h
      simp only [Except.map] at h
      cases h
    | ok l =>
      rw [hres] at h
      simp only [Except.map] at h
      cases h
      exact hinv
  | recordVerdict sender agent w =>
    rw [poolStep, recordVerdict] at h
    by_cases hres : sender = st.disputeResolver
    · rw [if_pos hres] at h
      dsimp only at h
      by_cases hact : (st.jurors agent).active = false
      · rw [if_pos hact] at h
        cases h
        exact hinv
      · rw [if_neg hact] at h
        cases h
        intro a ha
        dsimp only at ha ⊢
        by_cases hx : a = agent
        · subst hx
          simp at ha
          exact hinv a ha
        · simp only [if_neg hx] at ha
          exact hinv a ha
    · rw [if_neg hres] at h
      cases h
  | slashStake sender agent amount =>
    rw [poolStep, slashStake] at h
    by_cases hres : sender = st.disputeResolver
    · rw [if_pos hres] at h
      dsimp only at h
      by_cases hact : (st.jurors agent).active = true
      · rw [if_pos hact] at h
        cases h
        intro a ha
        dsimp only at ha ⊢
        by_cases hx : a = agent
        · subst hx
          simp at ha
          exact hinv a ha.2
        · simp only [if_neg hx] at ha
          exact hinv a ha
      · rw [if_neg hact] at h
        cases h
    · rw [if_neg hres] at h
      cases h

/-- C5 (amended): after every sequence of pool operations from a freshly
deployed pool, the active-juror half of the claimed consistency invariant
holds: each active juror's recorded index denotes a dense-list slot that
holds that juror.  (The converse slot-to-index half of the claimed
invariant fails on the code: a slash-deactivated juror that re-registers
leaves a stale duplicate slot, as the counterexample shows.) -/
theorem C5_active_index_invariant (resolver registry : Nat) (ops : List PoolOp) :
    IndexInv (runPool (emptyPool resolver registry) ops) := by
  have main : ∀ (ops : List PoolOp) (st : PoolState),
      IndexInv st → IndexInv (runPool st ops) := by
    intro ops
    induction ops with
    | nil => intro st h; exact h
    | cons op ops ih =>
      intro st h
      rw [runPool]
      cases hs : poolStep st op with
      | error e => exact ih st h
      | ok st' => exact ih st' (indexInv_poolStep st st' op h hs)
  exact main ops _ (fun a ha => absurd ha (by simp [emptyPool, defaultJuror]))

/-- Witness for C5 (amended) at a concrete one-registration run: juror
1's recorded slot holds juror 1. -/
theorem C5_active_index_invariant_witness :
    (runPool (emptyPool 7 0) [PoolOp.register 1 MIN_STAKE]).jurorList[
      (runPool (emptyPool 7 0) [PoolOp.register 1 MIN_STAKE]).jurorIndex 1]? =
      some 1 :=
  C5_active_index_invariant 7 0 [PoolOp.register 1 MIN_STAKE] 1 rfl

end JuryPool
